import Mathlib

/-!
Verification development for the UpAndUp presence/position server
(`src/server.js`).  The server keeps a durable registry of user records
keyed by Steam ID (`users`), an in-memory set of connected Steam IDs
(`connectedUsers`), and a list of SSE observer feeds (`sseClients`).
WebSocket messages are pipe-delimited lines (`HELLO|...`, `POSITION|...`)
handled by `ws.on("message")`; `ws.on("close")` clears the presence set;
`GET /events` subscribes a feed.  We embed the state and handlers as pure
Lean functions: the wall clock (`new Date().toISOString()`) becomes an
explicit `now : String` parameter, JavaScript numbers are modelled as
exact decimal values (`Option JsNum`, with `none` playing the role of
`NaN`), and the durable file becomes an explicit state field.
-/

namespace UpAndUp

/-- One durable registry record, field-for-field the object literal built in
the `HELLO` branch of `server.js`:
`{ steamId, username, region, timezone, firstConnected, lastConnected, lastPosition }`.
Timestamps are the opaque ISO strings the code stores. -/
structure UserRecord where
  steamId : String
  username : String
  region : String
  timezone : String
  firstConnected : String
  lastConnected : String
  lastPosition : String
  deriving DecidableEq, Repr

/-- The registry `users` as a key/record association list.  A JavaScript
object keyed by strings; insertion order is kept (no claim depends on the
enumeration order `Object.values` uses). -/
abbrev Registry := List (String × UserRecord)

/-- `users[k]` — first (unique) binding for `k`. -/
def lookupUser : Registry → String → Option UserRecord
  | [], _ => none
  | (k, u) :: rest, key => if k = key then some u else lookupUser rest key

/-- In-place field update `users[k].f = v`, leaving other keys alone. -/
def updateUser : Registry → String → (UserRecord → UserRecord) → Registry
  | [], _, _ => []
  | (k, u) :: rest, key, f =>
    (if k = key then (k, f u) else (k, u)) :: updateUser rest key f

/-- One observer-feed entry of the snapshot JSON that `formatUsers`
produces for SSE clients. -/
structure SnapshotEntry where
  username : String
  steamId : String
  joined : String
  connected : Bool
  lastPosition : String
  deriving DecidableEq, Repr

/-- `Date.prototype.toLocaleString` applied to `new Date(firstConnected)`.
External locale-dependent rendering; no claim inspects its output, so we
keep the timestamp value itself. -/
def toLocaleString (s : String) : String := s

/-- The whole mutable server state: registry, presence set, SSE feeds
(each feed keeps the snapshots written to it, oldest first, tagged with a
fresh id so feeds can be removed), the durable file contents, and counters
for `saveUsers()` / `broadcastUsers()` calls. -/
structure ServerState where
  users : Registry
  connectedUsers : List String
  sseClients : List (Nat × List (List SnapshotEntry))
  nextFeedId : Nat
  disk : Registry
  saveCount : Nat
  broadcastCount : Nat
  deriving DecidableEq, Repr

/-- `formatUsers()` from `server.js`: map `Object.values(users)` to the
snapshot entries, JavaScript `||` defaults turning falsy (empty) strings
into `"(unknown)"` / `"N/A"`, and `connected` testing presence-set
membership. -/
def formatUsers (st : ServerState) : List SnapshotEntry :=
  st.users.map fun p =>
    { username := if p.2.username = "" then "(unknown)" else p.2.username
      steamId := if p.2.steamId = "" then "N/A" else p.2.steamId
      joined := if p.2.firstConnected = "" then "N/A" else toLocaleString p.2.firstConnected
      connected := st.connectedUsers.contains p.2.steamId
      lastPosition := if p.2.lastPosition = "" then "N/A" else p.2.lastPosition }

/-- `saveUsers()`: `fs.writeFileSync(USERS_FILE, JSON.stringify(users))` —
the durable file now holds the registry; we also count the call. -/
def saveUsers (st : ServerState) : ServerState :=
  { st with disk := st.users, saveCount := st.saveCount + 1 }

/-- Append one rendered snapshot to every feed (the body of the
`sseClients.forEach` loop in `broadcastUsers`). -/
def appendSnap (cs : List (Nat × List (List SnapshotEntry))) (snap : List SnapshotEntry) :
    List (Nat × List (List SnapshotEntry)) :=
  cs.map fun p => (p.1, p.2 ++ [snap])

/-- `broadcastUsers()`: render one snapshot and write it to every
subscribed SSE feed. -/
def broadcastUsers (st : ServerState) : ServerState :=
  { st with
    sseClients := appendSnap st.sseClients (formatUsers st)
    broadcastCount := st.broadcastCount + 1 }

/-- Accumulating splitter behind `jsSplitBar`: the first argument is the
remaining input, the second the current field, reversed. -/
def splitBarAux : List Char → List Char → List String
  | [], acc => [String.mk acc.reverse]
  | c :: rest, acc =>
    if c = '|' then String.mk acc.reverse :: splitBarAux rest []
    else splitBarAux rest (c :: acc)

/-- JavaScript `msg.split("|")` for the single-character separator `"|"`:
fields between bars, `""` yielding `[""]` and adjacent bars yielding empty
fields. -/
def jsSplitBar (s : String) : List String := splitBarAux s.toList []

/-- `parts[i]` on the result of `msg.split("|")`.  Indexing past the end
yields JavaScript `undefined`, which both `users[...]` property access and
`parseFloat` coerce to the string `"undefined"`; theorems that care about
field values assume the message has enough parts. -/
def jsPart (parts : List String) (i : Nat) : String := parts.getD i "undefined"

/-- Digit run split off the front of a character list. -/
def takeDigits (cs : List Char) : List Char × List Char :=
  (cs.takeWhile Char.isDigit, cs.dropWhile Char.isDigit)

/-- Decimal value of a digit run. -/
def digitsToNat (ds : List Char) : Nat :=
  ds.foldl (fun a c => 10 * a + (c.toNat - 48)) 0

/-- A JavaScript number as the exact decimal value `mant / 10 ^ exp`.
The protocol's coordinates are decimal numerals, and the server does no
arithmetic on them — it only parses (`parseFloat`) and formats
(`toFixed(2)`) — so exact decimals model the float64 values faithfully
for the magnitudes exercised here. -/
structure JsNum where
  mant : Int
  exp : Nat
  deriving DecidableEq, Repr

/-- JavaScript `parseFloat` on the decimal-numeral subset the protocol
uses (optional sign, digits, optional fraction; longest valid prefix;
leading whitespace skipped).  `none` is `NaN`.  Exponent and `Infinity`
forms are outside the subset exercised by this server's messages. -/
def jsParseFloat (s : String) : Option JsNum :=
  let cs := s.toList.dropWhile fun c => c = ' ' || c = '\t' || c = '\n' || c = '\r'
  let signAndRest : Int × List Char :=
    match cs with
    | '-' :: rest => (-1, rest)
    | '+' :: rest => (1, rest)
    | _ => (1, cs)
  let ipAndRest := takeDigits signAndRest.2
  let fp : List Char :=
    match ipAndRest.2 with
    | '.' :: rest => (takeDigits rest).1
    | _ => []
  if ipAndRest.1.isEmpty && fp.isEmpty then none
  else
    some ⟨signAndRest.1 *
      ((digitsToNat ipAndRest.1 : Int) * 10 ^ fp.length + digitsToNat fp), fp.length⟩

/-- Fraction part padded to two digits. -/
def pad2 (n : Nat) : String := if n < 10 then "0" ++ toString n else toString n

/-- Render `n` hundredths as a two-fraction-digit numeral. -/
def natFixed2 (n : Nat) : String := toString (n / 100) ++ "." ++ pad2 (n % 100)

/-- `Number.prototype.toFixed(2)`: per the ECMAScript algorithm, take the
sign apart and pick the integer `n` with `n / 100` closest to the absolute
value (ties to the larger `n`), then print with exactly two fraction
digits.  For `|mant| / 10 ^ e` that nearest-hundredths integer is
`(200 * |mant| + 10 ^ e) / (2 * 10 ^ e)` in natural division. -/
def decToFixed2 (d : JsNum) : String :=
  (if d.mant < 0 then "-" else "") ++
    natFixed2 ((200 * d.mant.natAbs + 10 ^ d.exp) / (2 * 10 ^ d.exp))

/-- `toFixed(2)` on a possibly-NaN number: `NaN.toFixed(2) = "NaN"`. -/
def jsToFixed2 : Option JsNum → String
  | none => "NaN"
  | some d => decToFixed2 d

/-- Presence-set `connectedUsers.add(steamId)`: idempotent insertion. -/
def setAdd (l : List String) (k : String) : List String :=
  if l.contains k then l else l ++ [k]

/-- The fresh record the `HELLO` branch builds for an unknown `steamId`. -/
def newRecord (parts : List String) (now : String) : UserRecord :=
  { steamId := jsPart parts 1
    username := jsPart parts 2
    region := jsPart parts 3
    timezone := jsPart parts 4
    firstConnected := now
    lastConnected := now
    lastPosition := "N/A" }

/-- The in-place update the `HELLO` branch performs on a known record. -/
def helloUpdate (parts : List String) (now : String) (u : UserRecord) : UserRecord :=
  { u with
    username := jsPart parts 2
    region := jsPart parts 3
    timezone := jsPart parts 4
    lastConnected := now }

/-- The registry after the `HELLO` branch's create-or-update step. -/
def helloRegistry (st : ServerState) (now : String) (parts : List String) : Registry :=
  match lookupUser st.users (jsPart parts 1) with
  | none => st.users ++ [(jsPart parts 1, newRecord parts now)]
  | some _ => updateUser st.users (jsPart parts 1) (helloUpdate parts now)

/-- The whole `HELLO` branch: create-or-update the record, add the key to
the presence set, `saveUsers()`, `broadcastUsers()`. -/
def helloStep (st : ServerState) (now : String) (parts : List String) : ServerState :=
  broadcastUsers (saveUsers
    { st with
      users := helloRegistry st now parts
      connectedUsers := setAdd st.connectedUsers (jsPart parts 1) })

/-- The formatted position string the `POSITION` branch stores:
`` `${x.toFixed(2)}, ${y.toFixed(2)}, ${z.toFixed(2)}` ``. -/
def positionString (parts : List String) : String :=
  jsToFixed2 (jsParseFloat (jsPart parts 2)) ++ ", " ++
    jsToFixed2 (jsParseFloat (jsPart parts 3)) ++ ", " ++
    jsToFixed2 (jsParseFloat (jsPart parts 4))

/-- The whole `POSITION` branch: if the key is known, overwrite its
`lastPosition` with the formatted coordinates, `saveUsers()`,
`broadcastUsers()`; otherwise do nothing. -/
def positionStep (st : ServerState) (parts : List String) : ServerState :=
  match lookupUser st.users (jsPart parts 1) with
  | some _ =>
    broadcastUsers (saveUsers
      { st with users := updateUser st.users (jsPart parts 1) fun u =>
          { u with lastPosition := positionString parts } })
  | none => st

/-- The `ws.on("message")` handler.  `now` is the ISO timestamp
`new Date().toISOString()` would produce at processing time.  Returns the
new state together with the `WELCOME` payload record, if any: the actual
frame is `WELCOME|` followed by the JSON of `users[steamId]`, whose JSON
encoding is an external concern, so we keep the record itself. -/
def handleMessage (st : ServerState) (now msg : String) : ServerState × Option UserRecord :=
  let parts := jsSplitBar msg
  if jsPart parts 0 = "HELLO" then
    let st3 := helloStep st now parts
    (st3, lookupUser st3.users (jsPart parts 1))
  else if jsPart parts 0 = "POSITION" then
    (positionStep st parts, none)
  else
    (st, none)

/-- The `ws.on("close")` handler: `connectedUsers.forEach(delete)` empties
the whole presence set (iterating a JS `Set` while deleting every visited
element leaves it empty), then one `broadcastUsers()`. -/
def handleClose (st : ServerState) : ServerState :=
  broadcastUsers { st with connectedUsers := [] }

/-- The `GET /events` SSE handler: push a fresh feed onto `sseClients`,
then immediately write it one `formatUsers()` snapshot of the current
state. -/
def handleSubscribe (st : ServerState) : ServerState :=
  { st with
    sseClients := st.sseClients ++ [(st.nextFeedId, [formatUsers st])]
    nextFeedId := st.nextFeedId + 1 }

/-- The SSE `req.on("close")` handler: filter the departing feed out of
`sseClients`. -/
def handleUnsubscribe (st : ServerState) (fid : Nat) : ServerState :=
  { st with sseClients := st.sseClients.filter fun p => p.1 ≠ fid }

/-- External events driving the server.  `sid` tags which WebSocket
session a message or close came from; the `server.js` handlers close over
`ws` but consult no per-session data, so `stepEvent` ignores the tag. -/
inductive Event where
  | message (sid : Nat) (now raw : String)
  | wsClose (sid : Nat)
  | subscribe
  | unsubscribe (fid : Nat)
  deriving DecidableEq, Repr

/-- One event step of the server. -/
def stepEvent (st : ServerState) : Event → ServerState
  | .message _ now raw => (handleMessage st now raw).1
  | .wsClose _ => handleClose st
  | .subscribe => handleSubscribe st
  | .unsubscribe fid => handleUnsubscribe st fid

/-- Run a trace of events from a state. -/
def runTrace (st : ServerState) (evs : List Event) : ServerState :=
  evs.foldl stepEvent st

/-- Whether session `sid` ever delivered a `HELLO` in the trace, i.e.
whether it ever left the spec's `Unidentified` state. -/
def sessionIdentified (evs : List Event) (sid : Nat) : Bool :=
  evs.any fun e =>
    match e with
    | .message s _ raw => s == sid && jsPart (jsSplitBar raw) 0 == "HELLO"
    | _ => false

/-- Startup lines 10–18 of `server.js`: `fileContents = none` models a
missing `users.json` (the `fs.existsSync` guard); `some none` models a
present but unparseable file (`JSON.parse` threw, caught, warning logged,
registry starts empty); `some (some u)` a file parsing to registry `u`.
Returns the initial registry together with the console warnings emitted;
the function is total, so no exception escapes startup. -/
def startupUsers (fileContents : Option (Option Registry)) : Registry × List String :=
  match fileContents with
  | none => ([], [])
  | some (some u) => (u, [])
  | some none => ([], ["⚠️ Failed to parse users.json, starting fresh."])

/-- The server state right after startup. -/
def initState (fileContents : Option (Option Registry)) : ServerState :=
  { users := (startupUsers fileContents).1
    connectedUsers := []
    sseClients := []
    nextFeedId := 0
    disk := (startupUsers fileContents).1
    saveCount := 0
    broadcastCount := 0 }

/-- Process a list of timestamped messages in order. -/
def runMessages (st : ServerState) (l : List (String × String)) : ServerState :=
  l.foldl (fun s p => (handleMessage s p.1 p.2).1) st

/-- The message is a `HELLO` frame carrying identity key `k`. -/
def isHelloFor (k msg : String) : Prop :=
  jsPart (jsSplitBar msg) 0 = "HELLO" ∧ jsPart (jsSplitBar msg) 1 = k

instance (k msg : String) : Decidable (isHelloFor k msg) := by
  unfold isHelloFor; infer_instance

/-- The snapshots written so far to the feed registered under `fid`. -/
def feedMsgs (st : ServerState) (fid : Nat) : Option (List (List SnapshotEntry)) :=
  (st.sseClients.find? fun p => p.1 == fid).map fun p => p.2

/-- Every registered feed id was drawn from the fresh-id counter.  Holds
at startup and is preserved by every event. -/
def feedWF (st : ServerState) : Prop :=
  ∀ p ∈ st.sseClients, p.1 < st.nextFeedId

instance (st : ServerState) : Decidable (feedWF st) := by
  unfold feedWF; infer_instance

/-! ## Registry lemmas -/

theorem lookupUser_updateUser (l : Registry) (k key : String) (f : UserRecord → UserRecord) :
    lookupUser (updateUser l key f) k =
      if k = key then (lookupUser l k).map f else lookupUser l k := by
  induction l with
  | nil => simp [lookupUser, updateUser]
  | cons p rest ih =>
    obtain ⟨a, u⟩ := p
    by_cases hak : a = key
    · rw [show updateUser ((a, u) :: rest) key f = (a, f u) :: updateUser rest key f by
        simp [updateUser, hak]]
      by_cases hka : a = k
      · subst hka
        simp [lookupUser, hak]
      · have hkey : ¬k = key := fun h => hka (hak.trans h.symm)
        simp [lookupUser, hka, hkey, ih]
    · rw [show updateUser ((a, u) :: rest) key f = (a, u) :: updateUser rest key f by
        simp [updateUser, hak]]
      by_cases hka : a = k
      · subst hka
        simp [lookupUser, hak]
      · simp [lookupUser, hka, ih]

theorem lookupUser_append (l l2 : Registry) (k : String) :
    lookupUser (l ++ l2) k =
      match lookupUser l k with
      | some u => some u
      | none => lookupUser l2 k := by
  induction l with
  | nil => simp [lookupUser]
  | cons p rest ih =>
    obtain ⟨a, u⟩ := p
    by_cases hak : a = k <;> simp_all [lookupUser]

theorem lookupUser_append_of_some (l l2 : Registry) (k : String) (u : UserRecord)
    (h : lookupUser l k = some u) : lookupUser (l ++ l2) k = some u := by
  rw [lookupUser_append, h]

theorem lookupUser_append_single_self (l : Registry) (k : String) (u : UserRecord)
    (h : lookupUser l k = none) : lookupUser (l ++ [(k, u)]) k = some u := by
  rw [lookupUser_append, h]; simp [lookupUser]

theorem lookupUser_append_single_ne (l : Registry) (k key : String) (u : UserRecord)
    (h : k ≠ key) : lookupUser (l ++ [(key, u)]) k = lookupUser l k := by
  rw [lookupUser_append]
  cases hl : lookupUser l k
  · simp [lookupUser, Ne.symm h]
  · rfl

/-! ## State-projection lemmas for the elementary operations -/

@[simp] theorem saveUsers_users (st : ServerState) : (saveUsers st).users = st.users := rfl

@[simp] theorem saveUsers_connected (st : ServerState) :
    (saveUsers st).connectedUsers = st.connectedUsers := rfl

@[simp] theorem saveUsers_sseClients (st : ServerState) :
    (saveUsers st).sseClients = st.sseClients := rfl

@[simp] theorem saveUsers_nextFeedId (st : ServerState) :
    (saveUsers st).nextFeedId = st.nextFeedId := rfl

@[simp] theorem saveUsers_disk (st : ServerState) : (saveUsers st).disk = st.users := rfl

@[simp] theorem saveUsers_saveCount (st : ServerState) :
    (saveUsers st).saveCount = st.saveCount + 1 := rfl

@[simp] theorem saveUsers_broadcastCount (st : ServerState) :
    (saveUsers st).broadcastCount = st.broadcastCount := rfl

@[simp] theorem broadcastUsers_users (st : ServerState) :
    (broadcastUsers st).users = st.users := rfl

@[simp] theorem broadcastUsers_connected (st : ServerState) :
    (broadcastUsers st).connectedUsers = st.connectedUsers := rfl

@[simp] theorem broadcastUsers_sseClients (st : ServerState) :
    (broadcastUsers st).sseClients = appendSnap st.sseClients (formatUsers st) := rfl

@[simp] theorem broadcastUsers_nextFeedId (st : ServerState) :
    (broadcastUsers st).nextFeedId = st.nextFeedId := rfl

@[simp] theorem broadcastUsers_disk (st : ServerState) : (broadcastUsers st).disk = st.disk := rfl

@[simp] theorem broadcastUsers_saveCount (st : ServerState) :
    (broadcastUsers st).saveCount = st.saveCount := rfl

@[simp] theorem broadcastUsers_broadcastCount (st : ServerState) :
    (broadcastUsers st).broadcastCount = st.broadcastCount + 1 := rfl

/-- `formatUsers` reads only the registry and the presence set. -/
theorem formatUsers_congr (st st' : ServerState) (hu : st.users = st'.users)
    (hc : st.connectedUsers = st'.connectedUsers) : formatUsers st = formatUsers st' := by
  simp [formatUsers, hu, hc]

/-! ## Case lemmas for the message handler -/

theorem handleMessage_hello (st : ServerState) (now msg : String)
    (h : jsPart (jsSplitBar msg) 0 = "HELLO") :
    handleMessage st now msg =
      (helloStep st now (jsSplitBar msg),
       lookupUser (helloStep st now (jsSplitBar msg)).users (jsPart (jsSplitBar msg) 1)) := by
  simp [handleMessage, h]

theorem handleMessage_position (st : ServerState) (now msg : String)
    (h : jsPart (jsSplitBar msg) 0 = "POSITION") :
    handleMessage st now msg = (positionStep st (jsSplitBar msg), none) := by
  simp [handleMessage, h]

theorem handleMessage_other (st : ServerState) (now msg : String)
    (h1 : jsPart (jsSplitBar msg) 0 ≠ "HELLO")
    (h2 : jsPart (jsSplitBar msg) 0 ≠ "POSITION") :
    handleMessage st now msg = (st, none) := by
  simp [handleMessage, h1, h2]

theorem positionStep_unknown (st : ServerState) (parts : List String)
    (h : lookupUser st.users (jsPart parts 1) = none) :
    positionStep st parts = st := by
  simp [positionStep, h]

theorem positionStep_known (st : ServerState) (parts : List String) (u : UserRecord)
    (h : lookupUser st.users (jsPart parts 1) = some u) :
    positionStep st parts =
      broadcastUsers (saveUsers
        { st with users := updateUser st.users (jsPart parts 1) fun v =>
            { v with lastPosition := positionString parts } }) := by
  simp [positionStep, h]

theorem helloRegistry_known (st : ServerState) (now : String) (parts : List String)
    (u : UserRecord) (h : lookupUser st.users (jsPart parts 1) = some u) :
    helloRegistry st now parts =
      updateUser st.users (jsPart parts 1) (helloUpdate parts now) := by
  simp [helloRegistry, h]

theorem helloRegistry_new (st : ServerState) (now : String) (parts : List String)
    (h : lookupUser st.users (jsPart parts 1) = none) :
    helloRegistry st now parts = st.users ++ [(jsPart parts 1, newRecord parts now)] := by
  simp [helloRegistry, h]

/-! ## Preservation of `firstConnected` -/

/-- No message ever removes a registry record or changes its
`firstConnected` (or its `steamId`): `HELLO` on a known key only touches
`username/region/timezone/lastConnected`, `POSITION` only `lastPosition`,
and everything else leaves the registry alone. -/
theorem handleMessage_preserves_firstConnected (st : ServerState) (now msg k : String)
    (u : UserRecord) (h : lookupUser st.users k = some u) :
    ∃ u', lookupUser ((handleMessage st now msg).1).users k = some u' ∧
      u'.firstConnected = u.firstConnected ∧ u'.steamId = u.steamId := by
  by_cases hh : jsPart (jsSplitBar msg) 0 = "HELLO"
  · rw [handleMessage_hello st now msg hh]
    dsimp only
    unfold helloStep
    simp only [broadcastUsers_users, saveUsers_users]
    unfold helloRegistry
    cases hk : lookupUser st.users (jsPart (jsSplitBar msg) 1) with
    | none =>
      refine ⟨u, ?_, rfl, rfl⟩
      exact lookupUser_append_of_some _ _ _ _ h
    | some v =>
      by_cases hke : k = jsPart (jsSplitBar msg) 1
      · subst hke
        refine ⟨helloUpdate (jsSplitBar msg) now u, ?_, rfl, rfl⟩
        rw [lookupUser_updateUser, if_pos rfl, h]
        rfl
      · refine ⟨u, ?_, rfl, rfl⟩
        rw [lookupUser_updateUser, if_neg hke, h]
  · by_cases hp : jsPart (jsSplitBar msg) 0 = "POSITION"
    · rw [handleMessage_position st now msg hp]
      dsimp only
      unfold positionStep
      cases hk : lookupUser st.users (jsPart (jsSplitBar msg) 1) with
      | none => exact ⟨u, h, rfl, rfl⟩
      | some v =>
        simp only [broadcastUsers_users, saveUsers_users]
        by_cases hke : k = jsPart (jsSplitBar msg) 1
        · subst hke
          refine ⟨{ u with lastPosition := positionString (jsSplitBar msg) }, ?_, rfl, rfl⟩
          rw [lookupUser_updateUser, if_pos rfl, h]
          rfl
        · refine ⟨u, ?_, rfl, rfl⟩
          rw [lookupUser_updateUser, if_neg hke, h]
    · rw [handleMessage_other st now msg hh hp]
      exact ⟨u, h, rfl, rfl⟩

/-- `firstConnected` preservation extended over a whole message list. -/
theorem runMessages_preserves_firstConnected (l : List (String × String))
    (st : ServerState) (k : String) (u : UserRecord)
    (h : lookupUser st.users k = some u) :
    ∃ u', lookupUser (runMessages st l).users k = some u' ∧
      u'.firstConnected = u.firstConnected := by
  induction l generalizing st u with
  | nil => exact ⟨u, h, rfl⟩
  | cons p rest ih =>
    obtain ⟨u1, h1, hf1, _⟩ :=
      handleMessage_preserves_firstConnected st p.1 p.2 k u h
    obtain ⟨u2, h2, hf2⟩ := ih (handleMessage st p.1 p.2).1 u1 h1
    exact ⟨u2, h2, hf2.trans hf1⟩

/-- A `HELLO` for an unknown key creates its record with
`firstConnected = lastConnected = now` and `lastPosition = "N/A"`. -/
theorem handleMessage_hello_creates (st : ServerState) (now msg : String)
    (hh : jsPart (jsSplitBar msg) 0 = "HELLO")
    (hk : lookupUser st.users (jsPart (jsSplitBar msg) 1) = none) :
    lookupUser ((handleMessage st now msg).1).users (jsPart (jsSplitBar msg) 1) =
      some (newRecord (jsSplitBar msg) now) := by
  rw [handleMessage_hello st now msg hh]
  dsimp only
  unfold helloStep
  simp only [broadcastUsers_users, saveUsers_users]
  rw [helloRegistry_new st now _ hk]
  exact lookupUser_append_single_self _ _ _ hk

/-! ## Observer-feed lemmas -/

theorem feedMsgs_congr (st st' : ServerState) (h : st.sseClients = st'.sseClients) :
    feedMsgs st = feedMsgs st' := by
  funext fid
  simp [feedMsgs, h]

theorem find?_appendSnap (cs : List (Nat × List (List SnapshotEntry)))
    (snap : List SnapshotEntry) (fid : Nat) :
    ((appendSnap cs snap).find? fun p => p.1 == fid) =
      (cs.find? fun p => p.1 == fid).map fun p => (p.1, p.2 ++ [snap]) := by
  induction cs with
  | nil => simp [appendSnap]
  | cons p rest ih =>
    by_cases h : p.1 == fid
    · simp [appendSnap, List.find?_cons, h]
    · simp only [appendSnap, List.map_cons, List.find?_cons] at *
      simp only [h]
      exact ih

theorem feedMsgs_broadcastUsers (st : ServerState) (fid : Nat) :
    feedMsgs (broadcastUsers st) fid = (feedMsgs st fid).map fun l => l ++ [formatUsers st] := by
  simp [feedMsgs, find?_appendSnap, Option.map_map]
  rfl

theorem feedMsgs_saveUsers (st : ServerState) (fid : Nat) :
    feedMsgs (saveUsers st) fid = feedMsgs st fid := rfl

/-- Message handling either leaves every feed's history alone or appends
one snapshot to all of them; it never registers or drops a feed. -/
theorem handleMessage_feedMsgs (st : ServerState) (now msg : String) (fid : Nat) :
    feedMsgs ((handleMessage st now msg).1) fid = feedMsgs st fid ∨
      ∃ snap, feedMsgs ((handleMessage st now msg).1) fid =
        (feedMsgs st fid).map fun l => l ++ [snap] := by
  by_cases hh : jsPart (jsSplitBar msg) 0 = "HELLO"
  · rw [handleMessage_hello st now msg hh]
    dsimp only
    unfold helloStep
    exact Or.inr ⟨_, feedMsgs_broadcastUsers _ fid⟩
  · by_cases hp : jsPart (jsSplitBar msg) 0 = "POSITION"
    · rw [handleMessage_position st now msg hp]
      dsimp only
      unfold positionStep
      cases hk : lookupUser st.users (jsPart (jsSplitBar msg) 1) with
      | none => exact Or.inl rfl
      | some v => exact Or.inr ⟨_, feedMsgs_broadcastUsers _ fid⟩
    · rw [handleMessage_other st now msg hh hp]
      exact Or.inl rfl

theorem handleMessage_nextFeedId (st : ServerState) (now msg : String) :
    ((handleMessage st now msg).1).nextFeedId = st.nextFeedId := by
  by_cases hh : jsPart (jsSplitBar msg) 0 = "HELLO"
  · rw [handleMessage_hello st now msg hh]
    rfl
  · by_cases hp : jsPart (jsSplitBar msg) 0 = "POSITION"
    · rw [handleMessage_position st now msg hp]
      dsimp only
      unfold positionStep
      cases hk : lookupUser st.users (jsPart (jsSplitBar msg) 1) <;> rfl
    · rw [handleMessage_other st now msg hh hp]

theorem find?_append_feed (l1 l2 : List (Nat × List (List SnapshotEntry)))
    (p : Nat × List (List SnapshotEntry) → Bool) :
    ((l1 ++ l2).find? p) =
      match l1.find? p with
      | some x => some x
      | none => l2.find? p := by
  induction l1 with
  | nil => simp
  | cons q rest ih =>
    by_cases h : p q
    · simp [List.find?_cons, h]
    · simp only [List.cons_append, List.find?_cons, h]
      simpa [h] using ih

theorem find?_filter_ne (cs : List (Nat × List (List SnapshotEntry))) (fid fid' : Nat)
    (h : fid ≠ fid') :
    ((cs.filter fun p => p.1 ≠ fid').find? fun p => p.1 == fid) =
      cs.find? fun p => p.1 == fid := by
  induction cs with
  | nil => rfl
  | cons q rest ih =>
    rw [List.filter_cons]
    by_cases hq : q.1 = fid'
    · rw [if_neg (by simp [hq])]
      rw [List.find?_cons_of_neg _ (by simp [hq, Ne.symm h])]
      exact ih
    · rw [if_pos (by simp [hq])]
      by_cases hf : q.1 = fid
      · rw [List.find?_cons_of_pos _ (by simp [hf]), List.find?_cons_of_pos _ (by simp [hf])]
      · rw [List.find?_cons_of_neg _ (by simp [hf]), List.find?_cons_of_neg _ (by simp [hf])]
        exact ih

/-- Message handling never adds or removes feeds: the subscriber list is
untouched or uniformly appended-to. -/
theorem handleMessage_sseClients (st : ServerState) (now msg : String) :
    ((handleMessage st now msg).1).sseClients = st.sseClients ∨
      ∃ snap, ((handleMessage st now msg).1).sseClients = appendSnap st.sseClients snap := by
  by_cases hh : jsPart (jsSplitBar msg) 0 = "HELLO"
  · rw [handleMessage_hello st now msg hh]
    exact Or.inr ⟨_, rfl⟩
  · by_cases hp : jsPart (jsSplitBar msg) 0 = "POSITION"
    · rw [handleMessage_position st now msg hp]
      dsimp only
      unfold positionStep
      cases hk : lookupUser st.users (jsPart (jsSplitBar msg) 1) with
      | none => exact Or.inl rfl
      | some v => exact Or.inr ⟨_, rfl⟩
    · rw [handleMessage_other st now msg hh hp]
      exact Or.inl rfl

theorem stepEvent_nextFeedId_mono (st : ServerState) (ev : Event) :
    st.nextFeedId ≤ (stepEvent st ev).nextFeedId := by
  cases ev with
  | message sid now raw =>
    rw [stepEvent, handleMessage_nextFeedId]
  | wsClose sid => exact le_refl _
  | subscribe => exact Nat.le_succ _
  | unsubscribe fid => exact le_refl _

theorem stepEvent_feedWF (st : ServerState) (ev : Event) (h : feedWF st) :
    feedWF (stepEvent st ev) := by
  cases ev with
  | message sid now raw =>
    intro p hp
    rw [stepEvent] at hp ⊢
    rw [handleMessage_nextFeedId]
    rcases handleMessage_sseClients st now raw with hs | ⟨snap, hs⟩
    · exact h p (hs ▸ hp)
    · rw [hs] at hp
      obtain ⟨q, hq, hpq⟩ := List.mem_map.mp hp
      have := h q hq
      rw [← hpq]
      exact this
  | wsClose sid =>
    intro p hp
    simp only [stepEvent, handleClose, broadcastUsers_nextFeedId] at hp ⊢
    obtain ⟨q, hq, hpq⟩ := List.mem_map.mp hp
    have := h q hq
    rw [← hpq]
    exact this
  | subscribe =>
    intro p hp
    simp only [stepEvent, handleSubscribe] at hp ⊢
    rcases List.mem_append.mp hp with hold | hnew
    · exact Nat.lt_succ_of_lt (h p hold)
    · simp only [List.mem_singleton] at hnew
      rw [hnew]
      exact Nat.lt_succ_self _
  | unsubscribe fid =>
    intro p hp
    simp only [stepEvent, handleUnsubscribe] at hp ⊢
    exact h p (List.mem_of_mem_filter hp)

theorem stepEvent_feedMsgs_none (st : ServerState) (ev : Event) (fid : Nat)
    (hlt : fid < st.nextFeedId) (h : feedMsgs st fid = none) :
    feedMsgs (stepEvent st ev) fid = none := by
  cases ev with
  | message sid now raw =>
    rw [stepEvent]
    rcases handleMessage_feedMsgs st now raw fid with h1 | ⟨snap, h1⟩
    · rw [h1, h]
    · rw [h1, h]
      rfl
  | wsClose sid =>
    rw [stepEvent]
    have hb : feedMsgs (handleClose st) fid =
        (feedMsgs { st with connectedUsers := [] } fid).map
          fun l => l ++ [formatUsers { st with connectedUsers := [] }] :=
      feedMsgs_broadcastUsers _ fid
    rw [hb]
    have : feedMsgs { st with connectedUsers := ([] : List String) } fid = none := h
    rw [this]
    rfl
  | subscribe =>
    simp only [stepEvent, handleSubscribe, feedMsgs] at h ⊢
    rw [find?_append_feed]
    rcases hf : st.sseClients.find? fun p => p.1 == fid with _ | q
    · rw [hf]
      have hne : ¬(st.nextFeedId == fid) = true := by
        simp only [beq_iff_eq]
        exact fun hq => absurd (hq ▸ hlt) (lt_irrefl fid)
      simp [List.find?_cons, hne]
    · rw [hf] at h
      simp at h
  | unsubscribe fid' =>
    simp only [stepEvent, handleUnsubscribe, feedMsgs] at h ⊢
    by_cases hff : fid = fid'
    · subst hff
      rw [List.find?_eq_none.mpr]
      · rfl
      · intro x hx
        have := List.of_mem_filter hx
        simp only [decide_not, Bool.not_eq_eq_eq_not, Bool.not_true, decide_eq_false_iff_not] at this
        simp [this]
    · rw [find?_filter_ne _ _ _ hff]
      exact h

theorem stepEvent_feedMsgs_some (st : ServerState) (ev : Event) (fid : Nat)
    (msgs : List (List SnapshotEntry)) (_hlt : fid < st.nextFeedId)
    (h : feedMsgs st fid = some msgs) :
    feedMsgs (stepEvent st ev) fid = none ∨
      ∃ extra, feedMsgs (stepEvent st ev) fid = some (msgs ++ extra) := by
  cases ev with
  | message sid now raw =>
    rw [stepEvent]
    rcases handleMessage_feedMsgs st now raw fid with h1 | ⟨snap, h1⟩
    · right
      exact ⟨[], by rw [h1, h, List.append_nil]⟩
    · right
      refine ⟨[snap], ?_⟩
      rw [h1, h]
      rfl
  | wsClose sid =>
    rw [stepEvent]
    right
    have hb : feedMsgs (handleClose st) fid =
        (feedMsgs { st with connectedUsers := [] } fid).map
          fun l => l ++ [formatUsers { st with connectedUsers := [] }] :=
      feedMsgs_broadcastUsers _ fid
    refine ⟨[formatUsers { st with connectedUsers := [] }], ?_⟩
    rw [hb]
    have : feedMsgs { st with connectedUsers := ([] : List String) } fid = some msgs := h
    rw [this]
    rfl
  | subscribe =>
    right
    refine ⟨[], ?_⟩
    simp only [stepEvent, handleSubscribe, feedMsgs] at h ⊢
    rw [find?_append_feed]
    rcases hf : st.sseClients.find? fun p => p.1 == fid with _ | q
    · rw [hf] at h
      simp at h
    · rw [hf] at h
      rw [hf]
      simpa using h
  | unsubscribe fid' =>
    by_cases hff : fid = fid'
    · subst hff
      left
      simp only [stepEvent, handleUnsubscribe, feedMsgs]
      rw [List.find?_eq_none.mpr]
      · rfl
      · intro x hx
        have := List.of_mem_filter hx
        simp only [decide_not, Bool.not_eq_eq_eq_not, Bool.not_true, decide_eq_false_iff_not] at this
        simp [this]
    · right
      refine ⟨[], ?_⟩
      simp only [stepEvent, handleUnsubscribe, feedMsgs]
      rw [find?_filter_ne _ _ _ hff]
      simp only [feedMsgs] at h
      rw [h, List.append_nil]

theorem runTrace_feedMsgs_none (evs : List Event) (st : ServerState) (fid : Nat)
    (hlt : fid < st.nextFeedId) (h : feedMsgs st fid = none) :
    feedMsgs (runTrace st evs) fid = none := by
  induction evs generalizing st with
  | nil => exact h
  | cons e rest ih =>
    exact ih (stepEvent st e) (lt_of_lt_of_le hlt (stepEvent_nextFeedId_mono st e))
      (stepEvent_feedMsgs_none st e fid hlt h)

/-- Once a feed holds history `msgs`, any run of further events can only
append to it (or remove the feed): whatever history it later shows starts
with `msgs`. -/
theorem runTrace_feed_extends (evs : List Event) (st : ServerState) (fid : Nat)
    (msgs : List (List SnapshotEntry)) (hlt : fid < st.nextFeedId)
    (h : feedMsgs st fid = some msgs) :
    ∀ msgs', feedMsgs (runTrace st evs) fid = some msgs' → ∃ extra, msgs' = msgs ++ extra := by
  induction evs generalizing st msgs with
  | nil =>
    intro msgs' h'
    rw [runTrace] at h'
    simp only [List.foldl_nil] at h'
    rw [h] at h'
    exact ⟨[], by simpa using h'.symm⟩
  | cons e rest ih =>
    intro msgs' h'
    have hstep : runTrace st (e :: rest) = runTrace (stepEvent st e) rest := rfl
    rw [hstep] at h'
    have hlt' : fid < (stepEvent st e).nextFeedId :=
      lt_of_lt_of_le hlt (stepEvent_nextFeedId_mono st e)
    rcases stepEvent_feedMsgs_some st e fid msgs hlt h with hnone | ⟨extra, hsome⟩
    · rw [runTrace_feedMsgs_none rest _ fid hlt' hnone] at h'
      exact absurd h' (by simp)
    · obtain ⟨extra2, h2⟩ := ih (stepEvent st e) (msgs ++ extra) hlt' hsome msgs' h'
      exact ⟨extra ++ extra2, by rw [h2, List.append_assoc]⟩

/-! ## Claims -/

/-- C1: the claim states that with two concurrently open sessions for the
same identity, closing one leaves the identity connected in the published
snapshot.  The code instead empties the whole presence set on any close:
after two sessions `HELLO` as `76561` and one of them closes,
`connectedUsers` is empty and the next snapshot shows `76561`
disconnected.  This theorem evaluates the code at that failing input. -/
theorem close_of_one_of_two_sessions_drops_presence :
    (runTrace (initState none)
        [Event.message 1 "T0" "HELLO|76561|Alice|EU|UTC+1",
         Event.message 2 "T1" "HELLO|76561|Alice|EU|UTC+1",
         Event.wsClose 2]).connectedUsers = [] ∧
    formatUsers (runTrace (initState none)
        [Event.message 1 "T0" "HELLO|76561|Alice|EU|UTC+1",
         Event.message 2 "T1" "HELLO|76561|Alice|EU|UTC+1",
         Event.wsClose 2]) =
      [{ username := "Alice", steamId := "76561", joined := "T0",
         connected := false, lastPosition := "N/A" }] := by
  decide

/-- C2: over any sequence of `HELLO` messages for the same identity key,
the record's `firstConnected` is the timestamp at which the first such
message was processed, and no later `HELLO` changes it. -/
theorem firstConnected_fixed_by_first_hello (st : ServerState) (k t0 m0 : String)
    (rest : List (String × String)) (hk : lookupUser st.users k = none)
    (h0 : isHelloFor k m0) (_hrest : ∀ p ∈ rest, isHelloFor k p.2) :
    ∃ u, lookupUser (runMessages st ((t0, m0) :: rest)).users k = some u ∧
      u.firstConnected = t0 := by
  have hk0 : lookupUser st.users (jsPart (jsSplitBar m0) 1) = none := by
    rw [h0.2]; exact hk
  have hcreate := handleMessage_hello_creates st t0 m0 h0.1 hk0
  rw [h0.2] at hcreate
  have hrun : runMessages st ((t0, m0) :: rest) =
      runMessages (handleMessage st t0 m0).1 rest := rfl
  rw [hrun]
  obtain ⟨u', hu', hf⟩ :=
    runMessages_preserves_firstConnected rest (handleMessage st t0 m0).1 k
      (newRecord (jsSplitBar m0) t0) hcreate
  exact ⟨u', hu', hf⟩

/-- C2 witness: two HELLOs for `76561`; the record keeps
`firstConnected = "T0"` from the first one. -/
theorem firstConnected_fixed_by_first_hello_witness :
    ∃ u, lookupUser (runMessages (initState none)
        [("T0", "HELLO|76561|Alice|EU|UTC+1"),
         ("T5", "HELLO|76561|Alicia|NA|UTC-5")]).users "76561" = some u ∧
      u.firstConnected = "T0" :=
  firstConnected_fixed_by_first_hello (initState none) "76561" "T0"
    "HELLO|76561|Alice|EU|UTC+1" [("T5", "HELLO|76561|Alicia|NA|UTC-5")]
    (by decide) (by decide) (by decide)

/-- C3: a `POSITION` message whose identity key has no registry record
leaves the whole server state unchanged — registry, presence, feeds,
durable file, save and broadcast counters — and sends no reply. -/
theorem position_unknown_key_is_noop (st : ServerState) (now msg : String)
    (hp : jsPart (jsSplitBar msg) 0 = "POSITION")
    (hk : lookupUser st.users (jsPart (jsSplitBar msg) 1) = none) :
    handleMessage st now msg = (st, none) := by
  rw [handleMessage_position st now msg hp, positionStep_unknown st _ hk]

/-- C3 witness: a `POSITION` for the unknown key `99999` on a fresh
server changes nothing. -/
theorem position_unknown_key_is_noop_witness :
    handleMessage (initState none) "T0" "POSITION|99999|1|2|3" = (initState none, none) :=
  position_unknown_key_is_noop (initState none) "T0" "POSITION|99999|1|2|3"
    (by decide) (by decide)

/-- C4 counterexample: the claim says every non-identification message on
a still-unidentified session is rejected with no state change and no
broadcast.  But session 2, which never sent a `HELLO`, sends a `POSITION`
for the known key `76561` and the server applies it: the registry's
`lastPosition` changes and a second broadcast fires. -/
theorem unidentified_session_position_is_applied :
    sessionIdentified
        [Event.message 1 "T0" "HELLO|76561|Alice|EU|UTC+1",
         Event.message 2 "T1" "POSITION|76561|1|2|3"] 2 = false ∧
    (runTrace (initState none)
        [Event.message 1 "T0" "HELLO|76561|Alice|EU|UTC+1",
         Event.message 2 "T1" "POSITION|76561|1|2|3"]).broadcastCount = 2 ∧
    lookupUser (runTrace (initState none)
        [Event.message 1 "T0" "HELLO|76561|Alice|EU|UTC+1",
         Event.message 2 "T1" "POSITION|76561|1|2|3"]).users "76561" =
      some ⟨"76561", "Alice", "EU", "UTC+1", "T0", "T0", "1.00, 2.00, 3.00"⟩ := by
  decide

/-- C4 amended: the server keeps no per-session identification state, so
a message is rejected (state unchanged, nothing sent, no broadcast)
exactly when it is not a `HELLO` and not a `POSITION` for a known key;
in particular every unknown command on an unidentified session is
rejected, but a `POSITION` for a known key is applied even if the sending
session never identified. -/
theorem unidentified_rejection_except_known_position (st : ServerState) (now msg : String)
    (h1 : jsPart (jsSplitBar msg) 0 ≠ "HELLO")
    (h2 : jsPart (jsSplitBar msg) 0 = "POSITION" →
      lookupUser st.users (jsPart (jsSplitBar msg) 1) = none) :
    handleMessage st now msg = (st, none) := by
  by_cases hp : jsPart (jsSplitBar msg) 0 = "POSITION"
  · rw [handleMessage_position st now msg hp, positionStep_unknown st _ (h2 hp)]
  · exact handleMessage_other st now msg h1 hp

/-- C4 amended witness: an unknown command on a fresh server is
rejected without any state change. -/
theorem unidentified_rejection_except_known_position_witness :
    handleMessage (initState none) "T0" "STATUS|76561|hi" = (initState none, none) :=
  unidentified_rejection_except_known_position (initState none) "T0" "STATUS|76561|hi"
    (by decide) (by decide)

/-- C5 counterexample: the claim says a malformed message — e.g. a
`POSITION` whose x coordinate is not a decimal number — leaves all state
unchanged and persists nothing.  But for a known key the server stores
`"NaN, 1.00, 2.00"`, saves the registry again and broadcasts. -/
theorem malformed_position_mutates_state :
    lookupUser ((handleMessage
        (handleMessage (initState none) "T0" "HELLO|76561|Alice|EU|UTC+1").1
        "T1" "POSITION|76561|abc|1|2").1).users "76561" =
      some ⟨"76561", "Alice", "EU", "UTC+1", "T0", "T0", "NaN, 1.00, 2.00"⟩ ∧
    ((handleMessage
        (handleMessage (initState none) "T0" "HELLO|76561|Alice|EU|UTC+1").1
        "T1" "POSITION|76561|abc|1|2").1).saveCount = 2 ∧
    ((handleMessage
        (handleMessage (initState none) "T0" "HELLO|76561|Alice|EU|UTC+1").1
        "T1" "POSITION|76561|abc|1|2").1).broadcastCount = 2 := by
  decide

/-- C5 amended: messages with an unknown command tag, and `POSITION`
messages for unknown keys, leave all state unchanged; but a `POSITION`
with an unparseable coordinate for a known key is still applied — the
failed component is stored as `"NaN"` inside `lastPosition` — and the
registry is saved again.  The connection is never closed by the handler
in any of these cases. -/
theorem malformed_message_handling (st : ServerState) (now msg : String) :
    (jsPart (jsSplitBar msg) 0 ≠ "HELLO" → jsPart (jsSplitBar msg) 0 ≠ "POSITION" →
      handleMessage st now msg = (st, none)) ∧
    (jsPart (jsSplitBar msg) 0 = "POSITION" →
      lookupUser st.users (jsPart (jsSplitBar msg) 1) = none →
      handleMessage st now msg = (st, none)) ∧
    (∀ u, jsPart (jsSplitBar msg) 0 = "POSITION" →
      lookupUser st.users (jsPart (jsSplitBar msg) 1) = some u →
      jsParseFloat (jsPart (jsSplitBar msg) 2) = none →
      lookupUser ((handleMessage st now msg).1).users (jsPart (jsSplitBar msg) 1) =
        some { u with lastPosition := ("NaN" ++ ", " ++
          jsToFixed2 (jsParseFloat (jsPart (jsSplitBar msg) 3)) ++ ", " ++
          jsToFixed2 (jsParseFloat (jsPart (jsSplitBar msg) 4))) } ∧
      ((handleMessage st now msg).1).saveCount = st.saveCount + 1) := by
  refine ⟨fun h1 h2 => handleMessage_other st now msg h1 h2, ?_, ?_⟩
  · intro hp hk
    rw [handleMessage_position st now msg hp, positionStep_unknown st _ hk]
  · intro u hp hk hx
    rw [handleMessage_position st now msg hp]
    dsimp only
    rw [positionStep_known st _ u hk]
    constructor
    · simp only [broadcastUsers_users, saveUsers_users]
      rw [lookupUser_updateUser, if_pos rfl, hk]
      rw [show positionString (jsSplitBar msg) = "NaN" ++ ", " ++
          jsToFixed2 (jsParseFloat (jsPart (jsSplitBar msg) 3)) ++ ", " ++
          jsToFixed2 (jsParseFloat (jsPart (jsSplitBar msg) 4)) by
        unfold positionString
        rw [hx]
        rfl]
      rfl
    · rfl

/-- C5 amended witness: the `NaN`-storing branch evaluated at the
counterexample input. -/
theorem malformed_message_handling_witness :
    lookupUser ((handleMessage
        (handleMessage (initState none) "T0" "HELLO|76561|Alice|EU|UTC+1").1
        "T1" "POSITION|76561|abc|1|2").1).users "76561" =
      some ⟨"76561", "Alice", "EU", "UTC+1", "T0", "T0", "NaN, 1.00, 2.00"⟩ := by
  have h := (malformed_message_handling
      (handleMessage (initState none) "T0" "HELLO|76561|Alice|EU|UTC+1").1
      "T1" "POSITION|76561|abc|1|2").2.2
    ⟨"76561", "Alice", "EU", "UTC+1", "T0", "T0", "N/A"⟩
    (by decide) (by decide) (by decide)
  exact h.1.trans (by decide)

/-- C6: a `HELLO` for an already-known key updates exactly
`username/region/timezone/lastConnected` of that record to the message's
values and the current timestamp — `firstConnected`, `lastPosition` and
`steamId` are untouched — leaves every other key's record unchanged, and
is followed by a durable save of the updated registry. -/
theorem hello_known_key_updates_profile (st : ServerState) (now msg : String)
    (u : UserRecord) (_hlen : 5 ≤ (jsSplitBar msg).length)
    (hh : jsPart (jsSplitBar msg) 0 = "HELLO")
    (hk : lookupUser st.users (jsPart (jsSplitBar msg) 1) = some u) :
    lookupUser ((handleMessage st now msg).1).users (jsPart (jsSplitBar msg) 1) =
      some { u with
        username := jsPart (jsSplitBar msg) 2
        region := jsPart (jsSplitBar msg) 3
        timezone := jsPart (jsSplitBar msg) 4
        lastConnected := now } ∧
    (∀ k', k' ≠ jsPart (jsSplitBar msg) 1 →
      lookupUser ((handleMessage st now msg).1).users k' = lookupUser st.users k') ∧
    ((handleMessage st now msg).1).saveCount = st.saveCount + 1 ∧
    ((handleMessage st now msg).1).disk = ((handleMessage st now msg).1).users := by
  rw [handleMessage_hello st now msg hh]
  dsimp only
  unfold helloStep
  rw [helloRegistry_known st now _ u hk]
  refine ⟨?_, ?_, rfl, rfl⟩
  · simp only [broadcastUsers_users, saveUsers_users]
    rw [lookupUser_updateUser, if_pos rfl, hk]
    rfl
  · intro k' hk'
    simp only [broadcastUsers_users, saveUsers_users]
    rw [lookupUser_updateUser, if_neg hk']

/-- C6 witness: a second `HELLO` for `76561` rewrites the mutable profile
fields and `lastConnected` while keeping `firstConnected = "T0"` and
`lastPosition = "N/A"`. -/
theorem hello_known_key_updates_profile_witness :
    lookupUser ((handleMessage
        (handleMessage (initState none) "T0" "HELLO|76561|Alice|EU|UTC+1").1
        "T5" "HELLO|76561|Alicia|NA|UTC-5").1).users "76561" =
      some ⟨"76561", "Alicia", "NA", "UTC-5", "T0", "T5", "N/A"⟩ := by
  have h := hello_known_key_updates_profile
    (handleMessage (initState none) "T0" "HELLO|76561|Alice|EU|UTC+1").1
    "T5" "HELLO|76561|Alicia|NA|UTC-5"
    ⟨"76561", "Alice", "EU", "UTC+1", "T0", "T0", "N/A"⟩
    (by decide) (by decide) (by decide)
  exact h.1.trans (by decide)

/-- C7: an unparseable durable store at startup yields an empty registry
plus the logged warning, startup is total (no exception is modelled as
possible), and any subsequent `HELLO` creates a fresh record whose
`firstConnected` is that message's timestamp. -/
theorem corrupt_store_starts_empty_then_hello_succeeds :
    (startupUsers (some none)).1 = [] ∧
    (startupUsers (some none)).2 = ["⚠️ Failed to parse users.json, starting fresh."] ∧
    ∀ now msg, jsPart (jsSplitBar msg) 0 = "HELLO" →
      lookupUser ((handleMessage (initState (some none)) now msg).1).users
          (jsPart (jsSplitBar msg) 1) = some (newRecord (jsSplitBar msg) now) ∧
      (newRecord (jsSplitBar msg) now).firstConnected = now := by
  refine ⟨rfl, rfl, fun now msg hh => ⟨?_, rfl⟩⟩
  exact handleMessage_hello_creates (initState (some none)) now msg hh rfl

/-- C7 witness: after a corrupt store, `HELLO|76561|...` at `"T0"`
creates the fresh record. -/
theorem corrupt_store_starts_empty_then_hello_succeeds_witness :
    lookupUser ((handleMessage (initState (some none)) "T0"
        "HELLO|76561|Alice|EU|UTC+1").1).users "76561" =
      some ⟨"76561", "Alice", "EU", "UTC+1", "T0", "T0", "N/A"⟩ := by
  have h := corrupt_store_starts_empty_then_hello_succeeds.2.2 "T0"
    "HELLO|76561|Alice|EU|UTC+1" (by decide)
  exact h.1.trans (by decide)

/-- C8: subscribing registers a new feed and immediately writes it
exactly one snapshot of the current registry and presence state; whatever
events follow, that snapshot stays the first message the feed ever
received, so every change-triggered snapshot reaches it strictly later. -/
theorem subscribe_sends_immediate_snapshot (st : ServerState) (evs : List Event)
    (msgs : List (List SnapshotEntry)) :
    (handleSubscribe st).sseClients =
      st.sseClients ++ [(st.nextFeedId, [formatUsers st])] ∧
    (feedWF st →
      feedMsgs (runTrace (handleSubscribe st) evs) st.nextFeedId = some msgs →
      msgs.head? = some (formatUsers st)) := by
  refine ⟨rfl, fun hwf hrun => ?_⟩
  have hnone : (st.sseClients.find? fun p => p.1 == st.nextFeedId) = none :=
    List.find?_eq_none.mpr fun x hx => by
      have hlt := hwf x hx
      simp only [beq_iff_eq]
      exact fun he => absurd (he ▸ hlt) (lt_irrefl _)
  have h0 : feedMsgs (handleSubscribe st) st.nextFeedId = some [formatUsers st] := by
    simp only [feedMsgs, handleSubscribe]
    rw [find?_append_feed, hnone]
    simp [List.find?_cons]
  obtain ⟨extra, hext⟩ := runTrace_feed_extends evs (handleSubscribe st) st.nextFeedId
    [formatUsers st] (Nat.lt_succ_self _) h0 msgs hrun
  rw [hext]
  rfl

/-- C8 witness: on a server with one identified user, a subscriber
immediately gets the current snapshot; after a further `POSITION` it has
two messages whose first is still that subscription snapshot. -/
theorem subscribe_sends_immediate_snapshot_witness :
    ([[⟨"Alice", "76561", "T0", true, "N/A"⟩],
      [⟨"Alice", "76561", "T0", true, "1.00, 2.00, 3.00"⟩]] :
        List (List SnapshotEntry)).head? =
      some (formatUsers
        (handleMessage (initState none) "T0" "HELLO|76561|Alice|EU|UTC+1").1) :=
  (subscribe_sends_immediate_snapshot
      (handleMessage (initState none) "T0" "HELLO|76561|Alice|EU|UTC+1").1
      [Event.message 1 "T1" "POSITION|76561|1|2|3"]
      [[⟨"Alice", "76561", "T0", true, "N/A"⟩],
       [⟨"Alice", "76561", "T0", true, "1.00, 2.00, 3.00"⟩]]).2
    (by decide) (by decide)

/-- C9: a `POSITION` for a known key with parseable decimal coordinates
rewrites that record's `lastPosition` to the three coordinates formatted
to exactly two fraction digits and joined by commas, and triggers one
broadcast whose snapshot is rendered from the updated state. -/
theorem position_known_key_formats_coordinates (st : ServerState) (now msg : String)
    (u : UserRecord) (x y z : JsNum)
    (hp : jsPart (jsSplitBar msg) 0 = "POSITION")
    (hk : lookupUser st.users (jsPart (jsSplitBar msg) 1) = some u)
    (hx : jsParseFloat (jsPart (jsSplitBar msg) 2) = some x)
    (hy : jsParseFloat (jsPart (jsSplitBar msg) 3) = some y)
    (hz : jsParseFloat (jsPart (jsSplitBar msg) 4) = some z) :
    lookupUser ((handleMessage st now msg).1).users (jsPart (jsSplitBar msg) 1) =
      some { u with lastPosition :=
        (decToFixed2 x ++ ", " ++ decToFixed2 y ++ ", " ++ decToFixed2 z) } ∧
    ((handleMessage st now msg).1).broadcastCount = st.broadcastCount + 1 ∧
    ((handleMessage st now msg).1).sseClients =
      appendSnap st.sseClients (formatUsers ((handleMessage st now msg).1)) := by
  rw [handleMessage_position st now msg hp]
  dsimp only
  rw [positionStep_known st _ u hk]
  refine ⟨?_, rfl, ?_⟩
  · simp only [broadcastUsers_users, saveUsers_users]
    rw [lookupUser_updateUser, if_pos rfl, hk]
    rw [show positionString (jsSplitBar msg) =
        decToFixed2 x ++ ", " ++ decToFixed2 y ++ ", " ++ decToFixed2 z by
      unfold positionString
      rw [hx, hy, hz]
      rfl]
    rfl
  · rw [broadcastUsers_sseClients]
    exact congrArg (appendSnap st.sseClients) (formatUsers_congr _ _ rfl rfl)

/-- C9 witness: the spec's scenario — `POSITION|76561|1.2345|-3|0` after
a `HELLO` stores `"1.23, -3.00, 0.00"`. -/
theorem position_known_key_formats_coordinates_witness :
    lookupUser ((handleMessage
        (handleMessage (initState none) "T0" "HELLO|76561|Alice|EU|UTC+1").1
        "T1" "POSITION|76561|1.2345|-3|0").1).users "76561" =
      some ⟨"76561", "Alice", "EU", "UTC+1", "T0", "T0", "1.23, -3.00, 0.00"⟩ := by
  have h := position_known_key_formats_coordinates
    (handleMessage (initState none) "T0" "HELLO|76561|Alice|EU|UTC+1").1
    "T1" "POSITION|76561|1.2345|-3|0"
    ⟨"76561", "Alice", "EU", "UTC+1", "T0", "T0", "N/A"⟩
    ⟨12345, 4⟩ ⟨-3, 0⟩ ⟨0, 0⟩
    (by decide) (by decide) (by decide) (by decide) (by decide)
  exact h.1.trans (by decide)

/-- C10: every connection close — from any session, identified or not —
empties the whole in-memory presence set, leaves the registry and the
durable file untouched, performs exactly one broadcast, and the snapshot
that broadcast publishes (and any later render of the state) shows every
known identity as disconnected. -/
theorem close_clears_all_presence_and_broadcasts_once (st : ServerState) (sid : Nat) :
    (stepEvent st (Event.wsClose sid)).connectedUsers = [] ∧
    (stepEvent st (Event.wsClose sid)).users = st.users ∧
    (stepEvent st (Event.wsClose sid)).saveCount = st.saveCount ∧
    (stepEvent st (Event.wsClose sid)).broadcastCount = st.broadcastCount + 1 ∧
    (stepEvent st (Event.wsClose sid)).sseClients =
      appendSnap st.sseClients (formatUsers (stepEvent st (Event.wsClose sid))) ∧
    ((formatUsers (stepEvent st (Event.wsClose sid))).all fun e => !e.connected) = true := by
  refine ⟨rfl, rfl, rfl, rfl, ?_, ?_⟩
  · rw [show stepEvent st (Event.wsClose sid) =
        broadcastUsers { st with connectedUsers := [] } from rfl]
    rw [broadcastUsers_sseClients]
    exact congrArg (appendSnap st.sseClients) (formatUsers_congr _ _ rfl rfl)
  · rw [List.all_eq_true]
    intro e he
    simp only [formatUsers, stepEvent, handleClose, broadcastUsers_users,
      broadcastUsers_connected, List.mem_map] at he
    obtain ⟨p, _, hpe⟩ := he
    rw [← hpe]
    rfl

end UpAndUp

-- Sanity checks for the number model: parsing and 2-digit formatting on
-- concrete inputs, matching what node evaluates for the same expressions.
example : UpAndUp.jsToFixed2 (UpAndUp.jsParseFloat "1.2345") = "1.23" := by decide
example : UpAndUp.jsToFixed2 (UpAndUp.jsParseFloat "-3") = "-3.00" := by decide
example : UpAndUp.jsToFixed2 (UpAndUp.jsParseFloat "0") = "0.00" := by decide
example : UpAndUp.jsToFixed2 (UpAndUp.jsParseFloat "abc") = "NaN" := by decide
example : UpAndUp.jsToFixed2 (UpAndUp.jsParseFloat "1.2xyz") = "1.20" := by decide
example : UpAndUp.jsToFixed2 (UpAndUp.jsParseFloat ".5") = "0.50" := by decide
example : UpAndUp.jsToFixed2 (UpAndUp.jsParseFloat "undefined") = "NaN" := by decide
